import Mathlib

/-!
Verification development for the incremental review-ingestion core of the
product-review-scraper repository.  The Python sources under
`src/incremental_scraper.py` and `src/review_scraper/text_cleaner.py` are
shallowly embedded below: pure string/record manipulation becomes Lean
functions, the file system and the JSON state file become explicit
association lists, and the external fetch collaborator becomes a function
parameter.  Machine-level details that the claims do not depend on (exact
pandas CSV round-tripping, the full HTML5 named-entity table) are modelled
by the common cases actually exercised; every branch of the embedded
functions follows the corresponding branch of the Python source.
-/

set_option maxRecDepth 4096

namespace Scraper

/-! ## Basic string utilities -/

/-- Whitespace test matching the characters the Python regex class
backslash-s matches on the data seen here (ASCII whitespace plus NBSP). -/
def isWsChar (c : Char) : Bool :=
  c = ' ' || c = '\t' || c = '\n' || c = '\r' ||
  c = (Char.ofNat 11) || c = (Char.ofNat 12) || c = (Char.ofNat 160)

/-- ASCII lower-casing of a character, as `str.lower` acts on the ASCII
column names and URLs in this code base. -/
def lowChar (c : Char) : Char :=
  if 'A' ≤ c ∧ c ≤ 'Z' then Char.ofNat (c.toNat + 32) else c

/-- ASCII lower-casing of a string (model of `str.lower()`). -/
def lowerStr (s : String) : String :=
  ⟨s.data.map lowChar⟩

/-- Does the list start with the given pattern? -/
def listStarts (needle hay : List Char) : Bool :=
  match needle, hay with
  | [], _ => true
  | _ :: _, [] => false
  | a :: ns, b :: hs => a = b && listStarts ns hs

/-- Substring search on character lists. -/
def listHasSub (needle hay : List Char) : Bool :=
  match hay with
  | [] => listStarts needle []
  | _ :: hs => listStarts needle hay || listHasSub needle hs

/-- Model of the Python substring test `needle in hay`. -/
def strContains (hay needle : String) : Bool :=
  listHasSub needle.data hay.data

/-! ## MD5 (model of `hashlib.md5(url.encode()).hexdigest()`)

Arithmetic is on `Nat` with explicit reduction modulo `2 ^ 32`. -/

def m32 : Nat := 4294967296

def add32 (a b : Nat) : Nat := (a + b) % m32

def not32 (a : Nat) : Nat := 4294967295 - a

def rotl32 (x s : Nat) : Nat :=
  ((x * 2 ^ s) % m32) + (x / 2 ^ (32 - s))

/-- UTF-8 encoding of a character (model of `str.encode()`). -/
def utf8Bytes (c : Char) : List Nat :=
  let n := c.toNat
  if n < 128 then [n]
  else if n < 2048 then [192 + n / 64, 128 + n % 64]
  else if n < 65536 then [224 + n / 4096, 128 + (n / 64) % 64, 128 + n % 64]
  else [240 + n / 262144, 128 + (n / 4096) % 64, 128 + (n / 64) % 64, 128 + n % 64]

def strBytes (s : String) : List Nat :=
  s.data.flatMap utf8Bytes

/-- The 64 MD5 sine-table constants. -/
def md5K : List Nat :=
  [3614090360, 3905402710, 606105819, 3250441966, 4118548399, 1200080426,
   2821735955, 4249261313, 1770035416, 2336552879, 4294925233, 2304563134,
   1804603682, 4254626195, 2792965006, 1236535329, 4129170786, 3225465664,
   643717713, 3921069994, 3593408605, 38016083, 3634488961, 3889429448,
   568446438, 3275163606, 4107603335, 1163531501, 2850285829, 4243563512,
   1735328473, 2368359562, 4294588738, 2272392833, 1839030562, 4259657740,
   2763975236, 1272893353, 4139469664, 3200236656, 681279174, 3936430074,
   3572445317, 76029189, 3654602809, 3873151461, 530742520, 3299628645,
   4096336452, 1126891415, 2878612391, 4237533241, 1700485571, 2399980690,
   4293915773, 2240044497, 1873313359, 4264355552, 2734768916, 1309151649,
   4149444226, 3174756917, 718787259, 3951481745]

def md5S : List Nat :=
  [7, 12, 17, 22, 7, 12, 17, 22, 7, 12, 17, 22, 7, 12, 17, 22,
   5, 9, 14, 20, 5, 9, 14, 20, 5, 9, 14, 20, 5, 9, 14, 20,
   4, 11, 16, 23, 4, 11, 16, 23, 4, 11, 16, 23, 4, 11, 16, 23,
   6, 10, 15, 21, 6, 10, 15, 21, 6, 10, 15, 21, 6, 10, 15, 21]

/-- MD5 padding: append 0x80, zero-fill to 56 mod 64, append the bit length
as eight little-endian bytes. -/
def md5Pad (msg : List Nat) : List Nat :=
  let len := msg.length
  let padLen := (55 + 64 - len % 64) % 64 + 1
  let bitLen := (len * 8) % (2 ^ 64)
  msg ++ (128 :: List.replicate (padLen - 1) 0) ++
    (List.range 8).map (fun i => bitLen / 2 ^ (8 * i) % 256)

/-- Split a byte list into 16 little-endian 32-bit words. -/
def md5Words (block : List Nat) : List Nat :=
  (List.range 16).map (fun i =>
    (block.getD (4 * i) 0) + (block.getD (4 * i + 1) 0) * 256 +
    (block.getD (4 * i + 2) 0) * 65536 + (block.getD (4 * i + 3) 0) * 16777216)

def md5F (i b c d : Nat) : Nat :=
  if i < 16 then Nat.lor (Nat.land b c) (Nat.land (not32 b) d)
  else if i < 32 then Nat.lor (Nat.land d b) (Nat.land (not32 d) c)
  else if i < 48 then Nat.xor b (Nat.xor c d)
  else Nat.xor c (Nat.lor b (not32 d))

def md5G (i : Nat) : Nat :=
  if i < 16 then i
  else if i < 32 then (5 * i + 1) % 16
  else if i < 48 then (3 * i + 5) % 16
  else (7 * i) % 16

def md5Round (w : List Nat) (st : Nat × Nat × Nat × Nat) (i : Nat) :
    Nat × Nat × Nat × Nat :=
  let (a, b, c, d) := st
  let f := add32 (add32 (add32 a (md5F i b c d)) (md5K.getD i 0))
    (w.getD (md5G i) 0)
  (d, add32 b (rotl32 f (md5S.getD i 0)), b, c)

def md5Block (st : Nat × Nat × Nat × Nat) (block : List Nat) :
    Nat × Nat × Nat × Nat :=
  let w := md5Words block
  let (a, b, c, d) := (List.range 64).foldl (md5Round w) st
  let (a0, b0, c0, d0) := st
  (add32 a0 a, add32 b0 b, add32 c0 c, add32 d0 d)

def chunk64 : List Nat → List (List Nat)
  | [] => []
  | a :: t => (a :: t).take 64 :: chunk64 ((a :: t).drop 64)
termination_by l => l.length
decreasing_by
  simp only [List.length_drop, List.length_cons]
  omega

def hexDigit (n : Nat) : Char :=
  if n < 10 then Char.ofNat (48 + n) else Char.ofNat (87 + n)

def byteHex (n : Nat) : List Char :=
  [hexDigit (n / 16 % 16), hexDigit (n % 16)]

def wordLEBytes (x : Nat) : List Nat :=
  [x % 256, x / 256 % 256, x / 65536 % 256, x / 16777216 % 256]

/-- Hex digest of the MD5 of the UTF-8 bytes of a string; model of
`hashlib.md5(s.encode()).hexdigest()`. -/
def md5hex (s : String) : String :=
  let blocks := chunk64 (md5Pad (strBytes s))
  let (a, b, c, d) :=
    blocks.foldl md5Block (1732584193, 4023233417, 2562383102, 271733878)
  ⟨([a, b, c, d].flatMap wordLEBytes).flatMap byteHex⟩

/-! ## SourceIdentity: `IncrementalScraper._generate_site_key`

The Python regexes are embedded as executable leftmost-match scanners.
`re.search` tries start positions left to right; at each position the
pattern pieces are matched with the backtracking the specific pattern
allows (noted case by case). -/

/-- Generic leftmost-match scanner: try the position matcher at every
suffix, left to right. -/
def scanFirst (f : List Char → Option String) : List Char → Option String
  | [] => none
  | c :: rest =>
    match f (c :: rest) with
    | some r => some r
    | none => scanFirst f rest

/-- Position matcher for the domain regex `https?://(?:www\.)?([^/]+)`:
`http`, optional `s`, `://`, optional `www.` (not taken when nothing
non-slash follows it), then a maximal nonempty run of non-slash
characters as the captured domain. -/
def domainAt (cs : List Char) : Option String :=
  if listStarts "http".data cs then
    let r1 := cs.drop 4
    let r2? : Option (List Char) :=
      if listStarts "s://".data r1 then some (r1.drop 4)
      else if listStarts "://".data r1 then some (r1.drop 3)
      else none
    match r2? with
    | none => none
    | some r2 =>
      let afterW := r2.drop 4
      let cand :=
        if listStarts "www.".data r2 && afterW.takeWhile (fun c => c ≠ '/') ≠ []
        then afterW else r2
      let dom := cand.takeWhile (fun c => c ≠ '/')
      if dom = [] then none else some ⟨dom⟩
  else none

/-- Leftmost match of the domain regex over the whole URL. -/
def searchDomain (url : String) : Option String :=
  scanFirst domainAt url.data

def isUpperDigit (c : Char) : Bool :=
  ('A' ≤ c && c ≤ 'Z') || ('0' ≤ c && c ≤ '9')

/-- Position matcher for `/(?:dp|gp/product|asin)/([A-Z0-9]{10})`;
the alternatives are tried in pattern order. -/
def amazonAt (cs : List Char) : Option String :=
  match cs with
  | '/' :: rest =>
    let tryAlt (alt : String) : Option String :=
      if listStarts alt.data rest then
        match rest.drop alt.length with
        | '/' :: r3 =>
          let pid := r3.take 10
          if pid.length = 10 && pid.all isUpperDigit then some ⟨pid⟩ else none
        | _ => none
      else none
    match tryAlt "dp" with
    | some r => some r
    | none =>
      match tryAlt "gp/product" with
      | some r => some r
      | none => tryAlt "asin"
  | _ => none

/-- Take a maximal nonempty run of characters outside `excl`, and return
it with the remainder; fails on an empty run (model of `[^...]+`). -/
def plusRun (excl : List Char) (cs : List Char) : Option (List Char × List Char) :=
  let run := cs.takeWhile (fun c => !excl.contains c)
  if run = [] then none else some (run, cs.drop run.length)

/-- Position matcher for `/(?:site|shop)/([^/]+/[^/]+/[^/.]+)`. -/
def bestbuyAt (cs : List Char) : Option String :=
  match cs with
  | '/' :: rest =>
    let tryAlt (alt : String) : Option String :=
      if listStarts alt.data rest then
        match rest.drop alt.length with
        | '/' :: r3 =>
          match plusRun ['/'] r3 with
          | some (s1, '/' :: r4) =>
            match plusRun ['/'] r4 with
            | some (s2, '/' :: r5) =>
              match plusRun ['/', '.'] r5 with
              | some (s3, _) => some ⟨s1 ++ '/' :: s2 ++ '/' :: s3⟩
              | none => none
            | _ => none
          | _ => none
        | _ => none
      else none
    match tryAlt "site" with
    | some r => some r
    | none => tryAlt "shop"
  | _ => none

def isDigitCh (c : Char) : Bool := '0' ≤ c && c ≤ '9'

/-- Maximal nonempty digit run (model of `(\d+)`). -/
def digitRun (cs : List Char) : Option String :=
  let run := cs.takeWhile isDigitCh
  if run = [] then none else some ⟨run⟩

/-- Position matcher for `/ip/[^/]+/(\d+)`. -/
def walmartAt (cs : List Char) : Option String :=
  if listStarts "/ip/".data cs then
    match plusRun ['/'] (cs.drop 4) with
    | some (_, '/' :: r2) => digitRun r2
    | _ => none
  else none

/-- Position matcher for the target pattern: slash, `p`, slash, a nonempty
non-slash run, then the literal five characters slash dash slash `A` dash,
then the captured digits. -/
def targetAt (cs : List Char) : Option String :=
  if listStarts "/p/".data cs then
    match plusRun ['/'] (cs.drop 3) with
    | some (_, rest) =>
      if listStarts "/-/A-".data rest then digitRun (rest.drop 5)
      else none
    | none => none
  else none

/-- Extracted domain, `"unknown"` when the domain regex finds no match. -/
def domainOf (url : String) : String :=
  (searchDomain url).getD "unknown"

/-- Domain-dispatched product-id extraction (the `elif` chain of
`_generate_site_key`). -/
def productIdOf (url : String) (domain : String) : Option String :=
  if strContains domain "amazon" then scanFirst amazonAt url.data
  else if strContains domain "bestbuy" then scanFirst bestbuyAt url.data
  else if strContains domain "walmart" then scanFirst walmartAt url.data
  else if strContains domain "target" then scanFirst targetAt url.data
  else none

/-- Model of `IncrementalScraper._generate_site_key`: extract the domain;
try a domain-specific product-id pattern; if none extracted, hash the whole
URL with MD5, otherwise return `domain + "_" + product_id`. -/
def generateSiteKey (url : String) : String :=
  match productIdOf url (domainOf url) with
  | none => md5hex url
  | some pid => domainOf url ++ "_" ++ pid

/-! ## WatermarkStore: scraper state and `_save_state` / `update_scrape_info`

The JSON state file maps site keys to per-scrape info dictionaries; the
dictionary is modelled as a structure with optional fields (a key absent
from the dict is `none`). -/

/-- Model of the per-site scrape-info dictionary. -/
structure ScrapeInfo where
  latestDate : Option String
  reviewId : Option String
  totalReviews : Nat
  lastScrapeTime : Option String
  lastScrapeUrl : Option String
deriving DecidableEq

/-- The in-memory scraper state: site key to scrape info. -/
abbrev StateMap := List (String × ScrapeInfo)

def stGet (st : StateMap) (k : String) : Option ScrapeInfo :=
  match st with
  | [] => none
  | (k', v) :: rest => if k' = k then some v else stGet rest k

/-- Model of `self.state[site_key] = scrape_info` (dict update). -/
def stSet (st : StateMap) (k : String) (v : ScrapeInfo) : StateMap :=
  match st with
  | [] => [(k, v)]
  | (k', v') :: rest => if k' = k then (k, v) :: rest else (k', v') :: stSet rest k v

/-- Observable file-system operations performed while persisting state. -/
inductive FsOp where
  | write (path : String) (content : StateMap)
  | rename (src dst : String)
deriving DecidableEq

/-- `os.path.join(data_dir, state_file)` with the constructor defaults. -/
def statePath : String := "scraped_data/scraper_state.json"

/-- Model of `_save_state`: one direct `open(path, "w")` + `json.dump`,
i.e. a single write straight to the state file path. -/
def saveStateOps (st : StateMap) : List FsOp :=
  [FsOp.write statePath st]

/-- Model of `update_scrape_info`: compute the site key, replace that
key in the state dict, and persist via `_save_state`. -/
def updateScrapeInfo (url : String) (info : ScrapeInfo) (st : StateMap) :
    StateMap × List FsOp :=
  let k := generateSiteKey url
  let st' := stSet st k info
  (st', saveStateOps st')

/-- Modelled from the spec: the atomic-persistence discipline the spec
prescribes for `put` — the operation trace must consist of a write to a
temporary file followed by a rename of that temporary file onto the state
file.  Used only to compare the source behaviour against the spec. -/
def specAtomicPut (ops : List FsOp) (finalPath : String) : Bool :=
  match ops with
  | [FsOp.write p _, FsOp.rename q r] => p = q && r = finalPath && p ≠ finalPath
  | _ => false

/-! ## DataFrames and `merge_new_reviews`

A CSV data file is modelled as a `Df`: the column list plus the rows,
each row an association list from column name to cell string.  A cell
absent from a row models a pandas `NaN` in that column.  The data
directory is a map from file path to `Df`; `pd.read_csv` of a present
file succeeds in the model (the read-error `except` arms of the source
collapse to the no-error case). -/

abbrev Row := List (String × String)

def rowGet (r : Row) (c : String) : Option String :=
  match r with
  | [] => none
  | (c', v) :: rest => if c' = c then some v else rowGet rest c

/-- Set a cell, replacing an existing binding in place or appending. -/
def rowSet (r : Row) (c : String) (v : String) : Row :=
  match r with
  | [] => [(c, v)]
  | (c', v') :: rest => if c' = c then (c, v) :: rest else (c', v') :: rowSet rest c v

structure Df where
  cols : List String
  rows : List Row
deriving DecidableEq

/-- The scraped-data directory: file path to data frame. -/
abbrev FS := List (String × Df)

def fsGet (fs : FS) (p : String) : Option Df :=
  match fs with
  | [] => none
  | (p', d) :: rest => if p' = p then some d else fsGet rest p

def fsSet (fs : FS) (p : String) (d : Df) : FS :=
  match fs with
  | [] => [(p, d)]
  | (p', d') :: rest => if p' = p then (p, d) :: rest else (p', d') :: fsSet rest p d

def fsDel (fs : FS) (p : String) : FS :=
  match fs with
  | [] => []
  | (p', d') :: rest => if p' = p then fsDel rest p else (p', d') :: fsDel rest p

/-- Columns whose lower-cased name contains one of the id markers
(`["id", "review_id", "reviewid"]`). -/
def idColumns (cols : List String) : List String :=
  cols.filter (fun c =>
    strContains (lowerStr c) "id" || strContains (lowerStr c) "review_id" ||
    strContains (lowerStr c) "reviewid")

/-- Columns whose lower-cased name contains a reviewer marker. -/
def reviewerColumns (cols : List String) : List String :=
  cols.filter (fun c =>
    strContains (lowerStr c) "reviewer" || strContains (lowerStr c) "author" ||
    strContains (lowerStr c) "user")

/-- Columns whose lower-cased name contains a date marker. -/
def dateColumns (cols : List String) : List String :=
  cols.filter (fun c =>
    strContains (lowerStr c) "date" || strContains (lowerStr c) "time" ||
    strContains (lowerStr c) "posted")

/-- The `potential_keys` list: first reviewer column (if any) then first
date column (if any), both taken from the existing frame. -/
def potentialKeys (cols : List String) : List String :=
  (match reviewerColumns cols with
   | [] => []
   | r :: _ => [r]) ++
  (match dateColumns cols with
   | [] => []
   | d :: _ => [d])

/-- Dash-join of the key columns of a row, `astype(str)` rendering a
missing cell (`NaN`) as `"nan"`; model of
`df[potential_keys].astype(str).agg('-'.join, axis=1)`. -/
def joinKeyVals (keys : List String) (r : Row) : String :=
  String.intercalate "-" (keys.map (fun c => (rowGet r c).getD "nan"))

/-- Append the `_merge_key` column to one row. -/
def addMergeKey (keys : List String) (r : Row) : Row :=
  rowSet r "_merge_key" (joinKeyVals keys r)

def colsWith (cols : List String) (c : String) : List String :=
  if cols.contains c then cols else cols ++ [c]

/-- pandas `concat` column union: first frame columns, then the columns
only the second frame has, in order. -/
def unionCols (a b : List String) : List String :=
  a ++ b.filter (fun c => !a.contains c)

/-- The dedup key value of a row: the cell in the dedup column; `none`
models `NaN` (which pandas `drop_duplicates` treats as equal to `NaN`). -/
def rowKey (k : String) (r : Row) : Option String :=
  rowGet r k

/-- Keep-first deduplication by key value with an accumulator of already
seen keys; model of `drop_duplicates(subset=[dedup_key], keep='first')`
applied to the concatenated rows. -/
def dedupGo (key : Row → Option String) (seen : List (Option String)) :
    List Row → List Row
  | [] => []
  | r :: rs =>
    if key r ∈ seen then dedupGo key seen rs
    else r :: dedupGo key (key r :: seen) rs

/-- Outcome of the dedup-key selection inside `merge_new_reviews`:
a usable key with the (possibly `_merge_key`-augmented) frames, the
degraded no-key mode, or the composite-key `KeyError` (raised when a
potential key column is missing from the new frame, caught by the outer
`except` as a merge failure). -/
inductive KeySel where
  | keyed (k : String) (dfE dfN : Df)
  | degraded
  | keyError
deriving DecidableEq

def selectKey (dfE dfN : Df) : KeySel :=
  match idColumns dfE.cols with
  | c :: _ => .keyed c dfE dfN
  | [] =>
    if (potentialKeys dfE.cols).length ≥ 2 then
      if (potentialKeys dfE.cols).all (fun c => dfN.cols.contains c) then
        .keyed "_merge_key"
          ⟨colsWith dfE.cols "_merge_key",
           dfE.rows.map (addMergeKey (potentialKeys dfE.cols))⟩
          ⟨colsWith dfN.cols "_merge_key",
           dfN.rows.map (addMergeKey (potentialKeys dfE.cols))⟩
      else .keyError
    else .degraded

/-- The stats dictionary returned with a successful merge; `newAdded` is
`none` when the `"new_added"` key is absent from the dictionary. -/
structure Stats where
  existing : Nat
  new : Nat
  newAdded : Option Int
  merged : Nat
deriving DecidableEq

/-- First component of the `merge_new_reviews` return value:
`(True, path, stats)` or `(False, None, {})`. -/
inductive MergeOut where
  | ok (path : String) (stats : Stats)
  | fail
deriving DecidableEq

/-- Model of `IncrementalScraper.merge_new_reviews`.  Returns the Python
result, the warned flag (degraded-mode `logger.warning`), and the data
directory after any `to_csv` write. -/
def mergeNewReviews (fs : FS) (existingFile newFile : String)
    (outputFile : Option String) : MergeOut × Bool × FS :=
  let outFile := outputFile.getD existingFile
  match fsGet fs existingFile with
  | none =>
    match fsGet fs newFile with
    | some dfN =>
      (.ok outFile ⟨0, dfN.rows.length, none, dfN.rows.length⟩, false,
       fsSet fs outFile dfN)
    | none => (.fail, false, fs)
  | some dfE =>
    match fsGet fs newFile with
    | none => (.ok existingFile ⟨0, 0, none, 0⟩, false, fs)
    | some dfN =>
      let existingCount := dfE.rows.length
      let newCount := dfN.rows.length
      if dfN.rows.isEmpty then
        (.ok existingFile ⟨existingCount, 0, none, existingCount⟩, false, fs)
      else
        match selectKey dfE dfN with
        | .degraded =>
          let dfM : Df := ⟨unionCols dfE.cols dfN.cols, dfE.rows ++ dfN.rows⟩
          (.ok outFile ⟨existingCount, newCount, none, dfM.rows.length⟩, true,
           fsSet fs outFile dfM)
        | .keyError => (.fail, false, fs)
        | .keyed k dfE' dfN' =>
          let rows := dedupGo (rowKey k) [] (dfE'.rows ++ dfN'.rows)
          let dfM : Df := ⟨unionCols dfE'.cols dfN'.cols, rows⟩
          (.ok outFile
            ⟨existingCount, newCount,
             some ((rows.length : Int) - (existingCount : Int)), rows.length⟩,
           false, fsSet fs outFile dfM)

/-! ## TextCleaner: `review_scraper/text_cleaner.py`

`MLStripper` (an `html.parser.HTMLParser` with `convert_charrefs=True`)
is modelled by `mlGo`: tags, comments, declarations and processing
instructions are dropped, script/style element content is emitted as
data, character references are decoded (the standard named entities plus
numeric references; the model's entity table carries the common core of
the HTML5 table), a `<` that does not open markup is data, and an
unterminated construct stays in the parser buffer and is dropped.  The
follow-up regex passes of `remove_html_tags` are embedded separately in
source order. -/

def ciStarts (pat : String) (cs : List Char) : Bool :=
  listStarts pat.data (cs.map lowChar)

def entTable : List (String × Char) :=
  [("amp", '&'), ("lt", '<'), ("gt", '>'), ("quot", '"'), ("apos", '\''),
   ("nbsp", Char.ofNat 160)]

def validCode (n : Nat) : Bool :=
  n < 55296 || (57344 ≤ n && n < 1114112)

def hexVal (c : Char) : Nat :=
  if isDigitCh c then c.toNat - 48
  else if 'a' ≤ c && c ≤ 'f' then c.toNat - 87
  else c.toNat - 55

def isHexCh (c : Char) : Bool :=
  isDigitCh c || ('a' ≤ c && c ≤ 'f') || ('A' ≤ c && c ≤ 'F')

/-- Decode one character reference found right after a `&`; returns the
decoded character and the remaining input. -/
def parseCharref (cs : List Char) : Option (Char × List Char) :=
  match cs with
  | '#' :: rest =>
    let (digs, base, rest2) :=
      match rest with
      | 'x' :: r => (r.takeWhile isHexCh, 16, r)
      | 'X' :: r => (r.takeWhile isHexCh, 16, r)
      | r => (r.takeWhile isDigitCh, 10, r)
    if digs = [] then none
    else
      let n := digs.foldl (fun a c => a * base + hexVal c) 0
      let rest3 := rest2.drop digs.length
      let rest4 := if rest3.head? = some ';' then rest3.drop 1 else rest3
      if validCode n then some (Char.ofNat n, rest4) else none
  | _ =>
    let name := cs.takeWhile (fun c => c.isAlphanum)
    match entTable.lookup ⟨name⟩ with
    | some c =>
      if (cs.drop name.length).head? = some ';' then
        some (c, cs.drop (name.length + 1))
      else none
    | none => none

def isAsciiLetter (c : Char) : Bool :=
  ('a' ≤ c && c ≤ 'z') || ('A' ≤ c && c ≤ 'Z')

/-- Drop input through the first occurrence of `pat`; `none` when `pat`
does not occur. -/
def dropAfter (pat : List Char) : List Char → Option (List Char)
  | [] => if pat = [] then some [] else none
  | c :: rest =>
    if listStarts pat (c :: rest) then some ((c :: rest).drop pat.length)
    else dropAfter pat rest

/-- Drop input through the next `>`; `none` when there is none. -/
def dropAfterGt (cs : List Char) : Option (List Char) :=
  dropAfter ['>'] cs

/-- Split script/style element content: data before the closing
`</ name` marker and the remainder starting at its `<`. -/
def cdataSplit (tag : List Char) : List Char → List Char × Option (List Char)
  | [] => ([], none)
  | c :: rest =>
    if listStarts "</".data (c :: rest) &&
       listStarts tag ((((c :: rest).drop 2).dropWhile isWsChar).map lowChar) then
      ([], some (c :: rest))
    else
      let (d, r) := cdataSplit tag rest
      (c :: d, r)

/-- The `MLStripper.feed`/`get_data` model (fuel-indexed; the wrapper
passes enough fuel for the whole input). -/
def mlGo (fuel : Nat) (cs : List Char) : List Char :=
  match fuel with
  | 0 => []
  | fuel + 1 =>
    match cs with
    | [] => []
    | '<' :: rest =>
      if listStarts "!--".data rest then
        match dropAfter "-->".data (rest.drop 3) with
        | some r => mlGo fuel r
        | none => []
      else
        match rest with
        | [] => []
        | c :: _ =>
          if isAsciiLetter c then
            match dropAfterGt rest with
            | none => []
            | some r =>
              let tagName : String := ⟨(rest.takeWhile Char.isAlphanum).map lowChar⟩
              if tagName = "script" || tagName = "style" then
                let (d, rem) := cdataSplit tagName.data r
                d ++ (match rem with
                      | none => []
                      | some rr =>
                        match dropAfterGt rr with
                        | none => []
                        | some r2 => mlGo fuel r2)
              else mlGo fuel r
          else if c = '/' || c = '!' || c = '?' then
            match dropAfterGt rest with
            | none => []
            | some r => mlGo fuel r
          else '<' :: mlGo fuel rest
    | '&' :: rest =>
      match parseCharref rest with
      | some (ch, r) => ch :: mlGo fuel r
      | none => '&' :: mlGo fuel rest
    | c :: rest => c :: mlGo fuel rest

def mlStrip (s : String) : String :=
  ⟨mlGo (s.data.length + 1) s.data⟩

/-- Second pass of `remove_html_tags`: `re.sub(r'<[^>]+>', '', text)`. -/
def stripTagsGo (fuel : Nat) (cs : List Char) : List Char :=
  match fuel with
  | 0 => cs
  | fuel + 1 =>
    match cs with
    | [] => []
    | '<' :: rest =>
      let run := rest.takeWhile (fun c => c ≠ '>')
      if run ≠ [] && (rest.drop run.length).head? = some '>' then
        stripTagsGo fuel (rest.drop (run.length + 1))
      else '<' :: stripTagsGo fuel rest
    | c :: rest => c :: stripTagsGo fuel rest

/-- Comment pass: `re.sub(r'<!--.*?-->', '', text, flags=re.DOTALL)`. -/
def stripCommentsGo (fuel : Nat) (cs : List Char) : List Char :=
  match fuel with
  | 0 => cs
  | fuel + 1 =>
    match cs with
    | [] => []
    | '<' :: rest =>
      if listStarts "!--".data rest then
        match dropAfter "-->".data (rest.drop 3) with
        | some r => stripCommentsGo fuel r
        | none => '<' :: stripCommentsGo fuel rest
      else '<' :: stripCommentsGo fuel rest
    | c :: rest => c :: stripCommentsGo fuel rest

/-- Drop input through the first case-insensitive occurrence of `pat`
(given lower-cased). -/
def ciDropAfter (pat : List Char) : List Char → Option (List Char)
  | [] => if pat = [] then some [] else none
  | c :: rest =>
    if listStarts pat ((c :: rest).map lowChar) then
      some ((c :: rest).drop pat.length)
    else ciDropAfter pat rest

/-- Script/style element pass, e.g.
`re.sub(r'<script[^>]*>.*?</script>', '', text, flags=re.DOTALL | re.IGNORECASE)`. -/
def stripElemGo (name : String) (fuel : Nat) (cs : List Char) : List Char :=
  match fuel with
  | 0 => cs
  | fuel + 1 =>
    match cs with
    | [] => []
    | '<' :: rest =>
      if ciStarts name rest then
        let r1 := rest.drop name.length
        let run := r1.takeWhile (fun c => c ≠ '>')
        let close := "</" ++ name ++ ">"
        if (r1.drop run.length).head? = some '>' then
          match ciDropAfter close.data (r1.drop (run.length + 1)) with
          | some r3 => stripElemGo name fuel r3
          | none => '<' :: stripElemGo name fuel rest
        else '<' :: stripElemGo name fuel rest
      else '<' :: stripElemGo name fuel rest
    | c :: rest => c :: stripElemGo name fuel rest

/-- Model of `TextCleaner.remove_html_tags`: the `MLStripper` pass, then
the three regex passes in source order. -/
def removeHtmlTags (s : String) : String :=
  let a := (mlStrip s).data
  let b := stripTagsGo (a.length + 1) a
  let c := stripCommentsGo (b.length + 1) b
  let d := stripElemGo "script" (c.length + 1) c
  ⟨stripElemGo "style" (d.length + 1) d⟩

/-- Model of step 2, `html.unescape`. -/
def htmlUnescape (s : String) : String :=
  ⟨unescGo (s.data.length + 1) s.data⟩
where
  unescGo (fuel : Nat) (cs : List Char) : List Char :=
    match fuel with
    | 0 => cs
    | fuel + 1 =>
      match cs with
      | [] => []
      | '&' :: rest =>
        match parseCharref rest with
        | some (ch, r) => ch :: unescGo fuel r
        | none => '&' :: unescGo fuel rest
      | c :: rest => c :: unescGo fuel rest

/-- The emoji / pictographic character class of `remove_emojis`. -/
def isEmojiChar (c : Char) : Bool :=
  let n := c.toNat
  (128512 ≤ n && n ≤ 128591) || (127744 ≤ n && n ≤ 128511) ||
  (128640 ≤ n && n ≤ 128767) || (127456 ≤ n && n ≤ 127487) ||
  (9986 ≤ n && n ≤ 10160) || (9410 ≤ n && n ≤ 127569) ||
  (129318 ≤ n && n ≤ 129335) || (65536 ≤ n && n ≤ 1114111) ||
  (9792 ≤ n && n ≤ 9794) || (9728 ≤ n && n ≤ 11093) ||
  n = 8205 || n = 9167 || n = 9193 || n = 8986 || n = 65039 || n = 12336

/-- Model of `TextCleaner.remove_emojis`. -/
def removeEmojis (s : String) : String :=
  ⟨s.data.filter (fun c => !isEmojiChar c)⟩

/-- Collapse each maximal whitespace run to a single space. -/
def collapseWs (fuel : Nat) (cs : List Char) : List Char :=
  match fuel with
  | 0 => cs
  | fuel + 1 =>
    match cs with
    | [] => []
    | c :: rest =>
      if isWsChar c then ' ' :: collapseWs fuel (rest.dropWhile isWsChar)
      else c :: collapseWs fuel rest

/-- Python `str.strip()` on the whitespace class. -/
def stripEnds (cs : List Char) : List Char :=
  ((cs.dropWhile isWsChar).reverse.dropWhile isWsChar).reverse

/-- Model of `TextCleaner.normalize_whitespace`. -/
def normalizeWhitespace (s : String) : String :=
  ⟨stripEnds (collapseWs (s.data.length + 1) s.data)⟩

/-! Artifact patterns of `remove_review_artifacts`, in list order, each
applied once by `re.sub(..., '', text, flags=re.IGNORECASE)`. -/

/-- Pattern 1: `^(Review:|Rating:|Verified Purchase:)\s*`. -/
def artPre (cs : List Char) : List Char :=
  if ciStarts "review:" cs then (cs.drop 7).dropWhile isWsChar
  else if ciStarts "rating:" cs then (cs.drop 7).dropWhile isWsChar
  else if ciStarts "verified purchase:" cs then (cs.drop 18).dropWhile isWsChar
  else cs

def ciEq (pat : String) (cs : List Char) : Bool :=
  cs.map lowChar = pat.data

/-- Pattern 2 position test: whitespace then one alternative reaching the
end of the string. -/
def p2At : List Char → Bool
  | [] => false
  | c :: rest =>
    ciEq "read more" (c :: rest) || ciEq "show less" (c :: rest) ||
    ciEq "see more" (c :: rest) || ciEq "...read more" (c :: rest) ||
    (isWsChar c && p2At rest)

/-- Pattern 2: `\s*(Read more|Show less|See more|\.\.\.read more)$`. -/
def p2Go : List Char → List Char
  | [] => []
  | c :: rest => if p2At (c :: rest) then [] else c :: p2Go rest

/-- Pattern 3: `\s*\[.*?\]\s*` — every occurrence is removed, together
with the surrounding whitespace runs; the lazy dot does not cross a
newline. -/
def p3Go (fuel : Nat) (cs : List Char) : List Char :=
  match fuel with
  | 0 => cs
  | fuel + 1 =>
    match cs with
    | [] => []
    | c :: rest =>
      let run := (c :: rest).takeWhile isWsChar
      let after := (c :: rest).drop run.length
      match after with
      | '[' :: r2 =>
        let content := r2.takeWhile (fun x => x ≠ ']' && x ≠ '\n')
        match r2.drop content.length with
        | ']' :: r3 => p3Go fuel (r3.dropWhile isWsChar)
        | _ => c :: p3Go fuel rest
      | _ => c :: p3Go fuel rest

/-- Pattern 4 content test: after the opening parenthesis, some `)` with
only whitespace to the end, reachable without crossing a newline. -/
def p4Content : List Char → Bool
  | [] => false
  | ')' :: rest => rest.all isWsChar || p4Content rest
  | '\n' :: _ => false
  | _ :: rest => p4Content rest

def p4At (l : List Char) : Bool :=
  match (l.dropWhile isWsChar) with
  | '(' :: r2 => p4Content r2
  | _ => false

/-- Pattern 4: `\s*\(.*?\)\s*$` — the match always extends to the end. -/
def p4Go : List Char → List Char
  | [] => []
  | c :: rest => if p4At (c :: rest) then [] else c :: p4Go rest

/-- Pattern 5: `^.*?says:\s*` — the lazy prefix stops at the first
`says:` and cannot cross a newline. -/
def p5Find : List Char → Option (List Char)
  | [] => none
  | c :: rest =>
    if ciStarts "says:" (c :: rest) then some ((c :: rest).drop 5)
    else if c = '\n' then none
    else p5Find rest

def artSays (cs : List Char) : List Char :=
  match p5Find cs with
  | some r => r.dropWhile isWsChar
  | none => cs

/-- Pattern 6: `^\d+\s*(stars?|\/5|out of 5)\s*`. -/
def artNumRating (cs : List Char) : List Char :=
  let ds := cs.takeWhile isDigitCh
  if ds = [] then cs
  else
    let a2 := (cs.drop ds.length).dropWhile isWsChar
    if ciStarts "stars" a2 then (a2.drop 5).dropWhile isWsChar
    else if ciStarts "star" a2 then (a2.drop 4).dropWhile isWsChar
    else if ciStarts "/5" a2 then (a2.drop 2).dropWhile isWsChar
    else if ciStarts "out of 5" a2 then (a2.drop 8).dropWhile isWsChar
    else cs

/-- Model of `TextCleaner.remove_review_artifacts`. -/
def removeReviewArtifacts (s : String) : String :=
  let a := artPre s.data
  let b := p2Go a
  let c := p3Go (b.length + 1) b
  let d := p4Go c
  let e := artSays d
  ⟨stripEnds (artNumRating e)⟩

/-- Model of `TextCleaner.clean_review_text`: the five pipeline steps in
order, then the final `strip()`. -/
def cleanReviewText (s : String) : String :=
  if s = "" then ""
  else
    ⟨stripEnds (removeReviewArtifacts (normalizeWhitespace (removeEmojis
      (htmlUnescape (removeHtmlTags s))))).data⟩

/-! ## Rating parsing: `TextCleaner.clean_rating`

Each pattern `(\d+(?:\.\d+)?)<suffix>` is tried at every start position,
left to right; at one position the number candidates are enumerated in
the backtracking order of the regex engine (longest integer part first;
for each, longest fraction first, then no fraction) and the first
candidate whose remainder satisfies the suffix wins.  Numbers are exact
rationals, which agrees with the Python float arithmetic on the decimal
values involved here. -/

def digitsVal (ds : List Char) : Nat :=
  ds.foldl (fun a c => a * 10 + (c.toNat - 48)) 0

/-- Candidate numeric matches at one position, in backtracking order,
paired with the rest of the input after the match.  The decimal value of
integer digits `i` and fraction digits `g` is the exact rational
`(i ++ g) / 10 ^ |g|`, built with `Rat.divInt` so that it evaluates by
kernel reduction. -/
def numCands (cs : List Char) : List (Rat × List Char) :=
  let ds := cs.takeWhile isDigitCh
  if ds = [] then []
  else
    (List.range ds.length).flatMap (fun i =>
      let d := ds.length - i
      let intPart := ds.take d
      let rest := cs.drop d
      match rest with
      | '.' :: r2 =>
        let fds := r2.takeWhile isDigitCh
        ((List.range fds.length).map (fun j =>
          let f := fds.length - j
          (Rat.divInt (digitsVal (intPart ++ fds.take f)) (((10 : Nat) ^ f : Nat) : Int),
           r2.drop f))) ++ [(Rat.divInt (digitsVal intPart) 1, rest)]
      | _ => [(Rat.divInt (digitsVal intPart) 1, rest)])

/-- Zero or more whitespace characters, then the continuation. -/
def wsSkips (k : List Char → Bool) : List Char → Bool
  | [] => k []
  | c :: rest => k (c :: rest) || (isWsChar c && wsSkips k rest)

def then5 (l : List Char) : Bool :=
  wsSkips (fun l2 => l2.head? = some '5') l

/-- Suffix of pattern 1: `\s*(?:out of|\/|\sof\s)\s*5`. -/
def rp1Suf (l : List Char) : Bool :=
  wsSkips (fun l2 =>
    (ciStarts "out of" l2 && then5 (l2.drop 6)) ||
    (l2.head? = some '/' && then5 (l2.drop 1)) ||
    (match l2 with
     | c :: r =>
       isWsChar c && ciStarts "of" r &&
       (match r.drop 2 with
        | c2 :: r2 => isWsChar c2 && then5 r2
        | [] => false)
     | [] => false)) l

/-- Suffix of pattern 2: `\s*\/\s*5`. -/
def rp2Suf (l : List Char) : Bool :=
  wsSkips (fun l2 => l2.head? = some '/' && then5 (l2.drop 1)) l

/-- Suffix of pattern 3: `\s*stars?`. -/
def rp3Suf (l : List Char) : Bool :=
  wsSkips (fun l2 => ciStarts "star" l2) l

/-- Suffix of pattern 4: `\s*\/\s*10`. -/
def rp4Suf (l : List Char) : Bool :=
  wsSkips (fun l2 =>
    l2.head? = some '/' &&
    wsSkips (fun l3 => listStarts "10".data l3) (l2.drop 1)) l

/-- Leftmost match of one number pattern with the given suffix test. -/
def findPat (suf : List Char → Bool) : List Char → Option Rat
  | [] => none
  | c :: rest =>
    match (numCands (c :: rest)).find? (fun p => suf p.2) with
    | some p => some p.1
    | none => findPat suf rest

/-- The capture of the first of the five rating patterns that matches. -/
def findRating (cs : List Char) : Option Rat :=
  match findPat rp1Suf cs with
  | some r => some r
  | none =>
    match findPat rp2Suf cs with
    | some r => some r
    | none =>
      match findPat rp3Suf cs with
      | some r => some r
      | none =>
        match findPat rp4Suf cs with
        | some r => some r
        | none => findPat (fun _ => true) cs

/-- Executable model of the Python builtin `min(a, b)` on rationals. -/
def minQ (a b : Rat) : Rat := if b < a then b else a

/-- Executable model of the Python builtin `max(a, b)` on rationals. -/
def maxQ (a b : Rat) : Rat := if a < b then b else a

/-- Model of `TextCleaner.clean_rating`: empty input is absent; HTML is
stripped; the matched number is halved when the stripped text contains
`/10` or the number exceeds 5, then clamped into `[0, 5]`; no pattern
match is absent. -/
def cleanRating (s : String) : Option Rat :=
  if s = "" then none
  else
    let t := removeHtmlTags s
    match findRating t.data with
    | none => none
    | some r =>
      let r2 := if strContains t "/10" || decide (r > 5) then mkRat r.num (r.den * 2) else r
      some (maxQ 0 (minQ 5 r2))

/-! ## Orchestrator: `IncrementalScraper.run_incremental_scrape`

The external fetch collaborator (`subprocess.run` of the Scrapy spider)
is a function parameter producing an exit code and, optionally, the data
frame the spider wrote to the temp file.  The wall clock
(`datetime.now().isoformat()`) is the `now` parameter.  Dates are
modelled for the ISO format the state file itself stores
(`pd.to_datetime` of other source formats is out of the claims' scope
and modelled as an unparseable date). -/

structure DateTimeV where
  y : Nat
  mo : Nat
  d : Nat
  h : Nat
  mi : Nat
  s : Nat
deriving DecidableEq

def isLeap (y : Nat) : Bool :=
  y % 4 = 0 && (y % 100 ≠ 0 || y % 400 = 0)

def daysInMonth (y mo : Nat) : Nat :=
  if mo = 2 then (if isLeap y then 29 else 28)
  else if mo = 4 || mo = 6 || mo = 9 || mo = 11 then 30
  else 31

def twoDigits (cs : List Char) : Option Nat :=
  match cs with
  | [a, b] => if isDigitCh a && isDigitCh b then some (digitsVal [a, b]) else none
  | _ => none

/-- Parse `YYYY-MM-DD` with optional `THH:MM:SS` (or a space separator);
model of `datetime.fromisoformat` / ISO `pd.to_datetime` on the strings
this pipeline itself produces.  Anything else is `none`. -/
def parseIsoDateTime (s : String) : Option DateTimeV :=
  let cs := s.data
  let yd := cs.take 4
  if yd.length = 4 && yd.all isDigitCh && (cs.drop 4).head? = some '-' then
    match twoDigits (cs.drop 5 |>.take 2), (cs.drop 7).head?, twoDigits (cs.drop 8 |>.take 2) with
    | some mo, some '-', some d =>
      if 1 ≤ mo && mo ≤ 12 && 1 ≤ d && d ≤ daysInMonth (digitsVal yd) mo then
        match cs.drop 10 with
        | [] => some ⟨digitsVal yd, mo, d, 0, 0, 0⟩
        | sep :: rest =>
          if (sep = 'T' || sep = ' ') && rest.length = 8 then
            match twoDigits (rest.take 2), (rest.drop 2).head?,
                  twoDigits (rest.drop 3 |>.take 2), (rest.drop 5).head?,
                  twoDigits (rest.drop 6 |>.take 2) with
            | some h, some ':', some mi, some ':', some sec =>
              if h < 24 && mi < 60 && sec < 60 then
                some ⟨digitsVal yd, mo, d, h, mi, sec⟩
              else none
            | _, _, _, _, _ => none
          else none
      else none
    | _, _, _ => none
  else none

/-- `timedelta(days=1)` subtraction keeping the time of day. -/
def minusOneDay (t : DateTimeV) : DateTimeV :=
  if t.d > 1 then ⟨t.y, t.mo, t.d - 1, t.h, t.mi, t.s⟩
  else if t.mo > 1 then
    ⟨t.y, t.mo - 1, daysInMonth t.y (t.mo - 1), t.h, t.mi, t.s⟩
  else ⟨t.y - 1, 12, 31, t.h, t.mi, t.s⟩

def pad2 (n : Nat) : String :=
  if n < 10 then "0" ++ toString n else toString n

def pad4 (n : Nat) : String :=
  if n < 10 then "000" ++ toString n
  else if n < 100 then "00" ++ toString n
  else if n < 1000 then "0" ++ toString n
  else toString n

/-- `strftime("%Y-%m-%d")`. -/
def fmtDate (t : DateTimeV) : String :=
  pad4 t.y ++ "-" ++ pad2 t.mo ++ "-" ++ pad2 t.d

/-- `Timestamp.isoformat()`. -/
def isoformatDT (t : DateTimeV) : String :=
  fmtDate t ++ "T" ++ pad2 t.h ++ ":" ++ pad2 t.mi ++ ":" ++ pad2 t.s

def dtLex (t : DateTimeV) : List Nat :=
  [t.y, t.mo, t.d, t.h, t.mi, t.s]

def natListLe : List Nat → List Nat → Bool
  | [], _ => true
  | _ :: _, [] => false
  | a :: as', b :: bs => if a < b then true else if b < a then false else natListLe as' bs

/-- Date-descending comparison with `NaT` sorted last
(`sort_values(ascending=False)` default `na_position='last'`). -/
def keepsBefore (a b : Option DateTimeV) : Bool :=
  match a, b with
  | some x, some y => natListLe (dtLex y) (dtLex x)
  | some _, none => true
  | none, some _ => false
  | none, none => true

def insDesc (x : Row × Option DateTimeV) :
    List (Row × Option DateTimeV) → List (Row × Option DateTimeV)
  | [] => [x]
  | y :: ys => if keepsBefore y.2 x.2 then y :: insDesc x ys else x :: y :: ys

def sortDesc (l : List (Row × Option DateTimeV)) : List (Row × Option DateTimeV) :=
  l.foldr insDesc []

/-- Model of `IncrementalScraper._get_latest_review_info` applied to a
readable data frame. -/
def latestReviewInfo (df : Df) : Option ScrapeInfo :=
  match df.rows with
  | [] => none
  | r0 :: _ =>
    match dateColumns df.cols with
    | dc :: _ =>
      let parsed := df.rows.map (fun r => (r, (rowGet r dc).bind parseIsoDateTime))
      match sortDesc parsed with
      | [] => none
      | latest :: _ =>
        let reviewId :=
          match idColumns df.cols with
          | ic :: _ => rowGet latest.1 ic
          | [] => none
        let latestDateStr :=
          match latest.2 with
          | some dt => isoformatDT dt
          | none => "NaT"
        some ⟨some latestDateStr, reviewId, df.rows.length, none, none⟩
    | [] =>
      match idColumns df.cols with
      | ic :: _ => some ⟨none, rowGet r0 ic, df.rows.length, none, none⟩
      | [] => some ⟨none, none, df.rows.length, none, none⟩

/-- The scrape parameter dictionary passed to the fetch collaborator. -/
structure ScrapeParams where
  url : String
  output : String
  sinceDate : Option String
  sinceId : Option String
  spider : String
deriving DecidableEq

/-- Spider selection from the URL (`if spider_name is None` chain). -/
def spiderFor (url : String) : String :=
  let lu := lowerStr url
  if strContains lu "amazon" then "amazon"
  else if strContains lu "bestbuy" then "bestbuy"
  else if strContains lu "walmart" then "walmart"
  else if strContains lu "target" then "target"
  else "generic"

def dataDir : String := "scraped_data"

/-- Pre-fetch computation: site key, output and temp paths, incremental
parameters from the stored watermark.  `none` models the uncaught
`ValueError` of `datetime.fromisoformat` on an unparseable stored date
(raised before the `try` block). -/
def computePre (st : StateMap) (url : String) (outOpt : Option String) :
    Option (ScrapeParams × String × String) :=
  let siteKey := generateSiteKey url
  let outFile := outOpt.getD (dataDir ++ "/" ++ siteKey ++ "_reviews.csv")
  let tempFile := dataDir ++ "/" ++ siteKey ++ "_new_reviews.csv"
  let last := stGet st siteKey
  let sinceDate? : Option (Option String) :=
    match last with
    | none => some none
    | some info =>
      match info.latestDate with
      | none => some none
      | some d =>
        match parseIsoDateTime d with
        | none => none
        | some dt => some (some (fmtDate (minusOneDay dt)))
  match sinceDate? with
  | none => none
  | some sinceDate =>
    let sinceId :=
      match last with
      | none => none
      | some info =>
        match info.reviewId with
        | some r => if r ≠ "" then some r else none
        | none => none
    some (⟨url, tempFile, sinceDate, sinceId, spiderFor url⟩, outFile, tempFile)

/-- Result of the external fetch collaborator: the process exit code and
the data frame it wrote to the temp file, if any. -/
structure FetchResult where
  returncode : Int
  produced : Option Df

/-- The data directory right after the fetch step. -/
def applyProduced (fs : FS) (tempFile : String) (produced : Option Df) : FS :=
  match produced with
  | some df => fsSet fs tempFile df
  | none => fs

/-- Python-level outcome of `run_incremental_scrape`: either an uncaught
exception, or the `(success, merged_file, stats)` tuple (`stats = none`
models the empty dict). -/
inductive RunOutcome where
  | crashed
  | returned (success : Bool) (mergedFile : Option String) (stats : Option Stats)
deriving DecidableEq

/-- Model of `IncrementalScraper.run_incremental_scrape`.  Returns the
outcome, the in-memory state map, the data directory, and the state-file
operations performed. -/
def runIncrementalScrape (st : StateMap) (fs : FS) (url : String)
    (fetch : ScrapeParams → FetchResult) (outOpt : Option String)
    (now : String) : RunOutcome × StateMap × FS × List FsOp :=
  match computePre st url outOpt with
  | none => (.crashed, st, fs, [])
  | some (params, outFile, tempFile) =>
    let r := fetch params
    let fs1 := applyProduced fs tempFile r.produced
    if r.returncode ≠ 0 then (.returned false none none, st, fs1, [])
    else
      match fsGet fs1 tempFile with
      | none => (.returned false none none, st, fs1, [])
      | some dfTemp =>
        let step :=
          match fsGet fs1 outFile with
          | some _ =>
            match mergeNewReviews fs1 outFile tempFile none with
            | (.ok p s, _, fs2) => (true, some p, some s, fs2)
            | (.fail, _, fs2) => (false, (none : Option String), (none : Option Stats), fs2)
          | none =>
            (true, some outFile, some ⟨0, dfTemp.rows.length, none, dfTemp.rows.length⟩,
             fsSet fs1 outFile dfTemp)
        match step with
        | (succ, mergedFile, stats, fs2) =>
          let upd :=
            if succ then
              match fsGet fs2 outFile with
              | none => (st, ([] : List FsOp))
              | some dfOut =>
                match latestReviewInfo dfOut with
                | none => (st, [])
                | some info =>
                  updateScrapeInfo url
                    ⟨info.latestDate, info.reviewId, info.totalReviews,
                     some now, some url⟩ st
            else (st, [])
          (.returned succ mergedFile stats, upd.1, fsDel fs2 tempFile, upd.2)

/-! ## Concrete instances used by witnesses and counterexamples -/

def url0 : String := "https://www.amazon.com/dp/B000000001"

def url1 : String := "https://www.amazon.com/dp/B000000002"

def infoW : ScrapeInfo := ⟨none, none, 0, none, none⟩

def dfE0 : Df :=
  ⟨["review_id", "text"],
   [[("review_id", "1"), ("text", "a")], [("review_id", "2"), ("text", "b")]]⟩

def dfN0 : Df :=
  ⟨["review_id", "text"],
   [[("review_id", "2"), ("text", "c")], [("review_id", "3"), ("text", "d")]]⟩

def fs0 : FS := [("existing.csv", dfE0), ("new.csv", dfN0)]

def dfDegE : Df := ⟨["text"], [[("text", "a")]]⟩

def dfDegN : Df := ⟨["text"], [[("text", "a")]]⟩

def fsDeg : FS := [("e.csv", dfDegE), ("n.csv", dfDegN)]

def fsW10 : FS := [("existing.csv", dfE0)]

def fetchFail : ScrapeParams → FetchResult := fun _ => ⟨1, none⟩

def tempW : String := "scraped_data/amazon.com_B000000001_new_reviews.csv"

def outW : String := "scraped_data/amazon.com_B000000001_reviews.csv"

def paramsW : ScrapeParams := ⟨url0, tempW, none, none, "amazon"⟩

/-! ## Helper lemmas -/

theorem stGet_stSet_self (st : StateMap) (k : String) (v : ScrapeInfo) :
    stGet (stSet st k v) k = some v := by
  induction st with
  | nil => simp [stSet, stGet]
  | cons kv rest ih =>
    by_cases h : kv.1 = k
    · simp [stSet, h, stGet]
    · simp [stSet, h, stGet, ih]

theorem stGet_stSet_ne (st : StateMap) (k k' : String) (v : ScrapeInfo)
    (h : k' ≠ k) : stGet (stSet st k v) k' = stGet st k' := by
  have hne : k ≠ k' := fun e => h e.symm
  induction st with
  | nil => simp [stSet, stGet, hne]
  | cons kv rest ih =>
    by_cases hk : kv.1 = k
    · simp [stSet, hk, stGet, hne]
    · simp [stSet, hk, stGet, ih]

theorem fsGet_fsSet_self (fs : FS) (p : String) (d : Df) :
    fsGet (fsSet fs p d) p = some d := by
  induction fs with
  | nil => simp [fsSet, fsGet]
  | cons kv rest ih =>
    by_cases h : kv.1 = p
    · simp [fsSet, h, fsGet]
    · simp [fsSet, h, fsGet, ih]

theorem strAppend_cancel {d p q : String} (h : d ++ "_" ++ p = d ++ "_" ++ q) :
    p = q := by
  have h2 := congrArg String.data h
  simp only [String.data_append, List.append_assoc] at h2
  exact String.ext (List.append_cancel_left (List.append_cancel_left h2))

/-! ## Claim C3 — watermark persistence is not temp-file-then-rename -/

/-- C3 counterexample: the state-save trace of a concrete `put` is not of
the write-temporary-then-rename shape the claim requires; `_save_state`
writes the state file directly. -/
theorem c3_counterexample :
    specAtomicPut (updateScrapeInfo url0 infoW []).2 statePath = false := by
  rfl

/-- C3 amended: storing a watermark replaces exactly that key in the
store and persists the whole store with a single direct write to the
state-file path — no temporary file and no rename. -/
theorem c3_theorem (url : String) (info : ScrapeInfo) (st : StateMap) :
    stGet (updateScrapeInfo url info st).1 (generateSiteKey url) = some info ∧
    (∀ k', k' ≠ generateSiteKey url →
      stGet (updateScrapeInfo url info st).1 k' = stGet st k') ∧
    (updateScrapeInfo url info st).2 =
      [FsOp.write statePath (stSet st (generateSiteKey url) info)] ∧
    specAtomicPut (updateScrapeInfo url info st).2 statePath = false := by
  refine ⟨stGet_stSet_self .., ?_, rfl, rfl⟩
  intro k' h
  exact stGet_stSet_ne _ _ _ _ h

theorem c3_witness :
    ("other" ≠ generateSiteKey url0) ∧
    stGet (updateScrapeInfo url0 infoW []).1 (generateSiteKey url0) = some infoW ∧
    stGet (updateScrapeInfo url0 infoW []).1 "other" = stGet [] "other" :=
  ⟨by decide, (c3_theorem url0 infoW []).1,
   (c3_theorem url0 infoW []).2.1 "other" (by decide)⟩

/-! ## Claim C4 — malformed URLs hash instead of failing -/

/-- C4 counterexample: on a URL with no scheme or host the key
derivation does not fail — it returns the MD5 fallback key. -/
theorem c4_counterexample :
    generateSiteKey "not a url" = md5hex "not a url" := by
  rfl

/-- C4 amended: for every URL the domain regex does not match (no
scheme/host), the derivation raises nothing and returns the MD5 hash of
the full URL; no state is involved. -/
theorem c4_theorem (url : String) (h : searchDomain url = none) :
    generateSiteKey url = md5hex url := by
  unfold generateSiteKey productIdOf domainOf
  rw [h]
  rfl

theorem c4_witness :
    searchDomain "nota" = none ∧ generateSiteKey "nota" = md5hex "nota" :=
  ⟨by decide, c4_theorem "nota" (by decide)⟩

/-! ## Claim C8 — identity determinism and per-product distinctness -/

/-- C8: key derivation is deterministic, and two URLs with the same
extracted domain but distinct extracted product ids derive distinct
keys. -/
theorem c8_theorem :
    (∀ url : String, generateSiteKey url = generateSiteKey url) ∧
    ∀ (u1 u2 p1 p2 : String),
      domainOf u1 = domainOf u2 →
      productIdOf u1 (domainOf u1) = some p1 →
      productIdOf u2 (domainOf u2) = some p2 →
      p1 ≠ p2 → generateSiteKey u1 ≠ generateSiteKey u2 := by
  refine ⟨fun _ => rfl, ?_⟩
  intro u1 u2 p1 p2 hd h1 h2 hne
  simp only [generateSiteKey, h1, h2]
  rw [hd]
  intro hkey
  exact hne (strAppend_cancel hkey)

theorem c8_witness :
    domainOf url0 = domainOf url1 ∧
    productIdOf url0 (domainOf url0) = some "B000000001" ∧
    productIdOf url1 (domainOf url1) = some "B000000002" ∧
    generateSiteKey url0 ≠ generateSiteKey url1 :=
  ⟨by decide, by decide, by decide,
   c8_theorem.2 url0 url1 "B000000001" "B000000002" (by decide) (by decide)
     (by decide) (by decide)⟩

/-! ## Claim C10 — merge with a missing new file -/

/-- C10: when the existing file exists and the new file does not, the
merge returns success with the existing path and all-zero statistics —
the existing count is reported as 0 whatever the existing file holds —
and writes nothing. -/
theorem c10_theorem (fs : FS) (ef nf : String) (out : Option String) (dfE : Df)
    (hE : fsGet fs ef = some dfE) (hN : fsGet fs nf = none) :
    mergeNewReviews fs ef nf out = (.ok ef ⟨0, 0, none, 0⟩, false, fs) := by
  unfold mergeNewReviews
  rw [hE, hN]

theorem c10_witness :
    fsGet fsW10 "existing.csv" = some dfE0 ∧
    fsGet fsW10 "missing.csv" = none ∧
    dfE0.rows.length = 2 ∧
    mergeNewReviews fsW10 "existing.csv" "missing.csv" none =
      (.ok "existing.csv" ⟨0, 0, none, 0⟩, false, fsW10) :=
  ⟨by decide, by decide, by decide,
   c10_theorem fsW10 "existing.csv" "missing.csv" none dfE0 (by decide) (by decide)⟩

/-! ## Deduplication lemmas -/

theorem dedupGo_sublist (key : Row → Option String) (seen : List (Option String))
    (l : List Row) : List.Sublist (dedupGo key seen l) l := by
  induction l generalizing seen with
  | nil => exact List.Sublist.refl _
  | cons r rs ih =>
    simp only [dedupGo]
    split
    · exact List.Sublist.cons r (ih seen)
    · exact List.Sublist.cons₂ r (ih _)

theorem dedupGo_length (key : Row → Option String) (seen : List (Option String))
    (l : List Row) : (dedupGo key seen l).length ≤ l.length :=
  (dedupGo_sublist key seen l).length_le

theorem dedupGo_key_notin (key : Row → Option String) {seen : List (Option String)}
    {l : List Row} {r : Row} (h : r ∈ dedupGo key seen l) : key r ∉ seen := by
  induction l generalizing seen with
  | nil => simp [dedupGo] at h
  | cons a rs ih =>
    simp only [dedupGo] at h
    split at h
    · exact ih h
    · rename_i hnin
      rcases List.mem_cons.mp h with rfl | h'
      · exact hnin
      · intro hc
        exact ih h' (List.mem_cons_of_mem _ hc)

theorem dedupGo_pairwise (key : Row → Option String) (seen : List (Option String))
    (l : List Row) :
    (dedupGo key seen l).Pairwise (fun a b => key a ≠ key b) := by
  induction l generalizing seen with
  | nil => simp [dedupGo]
  | cons r rs ih =>
    simp only [dedupGo]
    split
    · exact ih seen
    · refine List.Pairwise.cons ?_ (ih _)
      intro b hb he
      exact dedupGo_key_notin key hb (by rw [← he]; exact List.mem_cons_self _ _)

theorem dedupGo_rep (key : Row → Option String) (seen : List (Option String))
    (l : List Row) (a : Row) (ha : a ∈ l) (hnot : key a ∉ seen) :
    ∃ m ∈ dedupGo key seen l, key m = key a := by
  induction l generalizing seen with
  | nil => simp at ha
  | cons r rs ih =>
    simp only [dedupGo]
    split
    · rename_i hin
      rcases List.mem_cons.mp ha with rfl | h'
      · exact absurd hin hnot
      · exact ih seen h' hnot
    · rename_i hnin
      rcases List.mem_cons.mp ha with rfl | h'
      · exact ⟨a, List.mem_cons_self _ _, rfl⟩
      · by_cases hk : key a = key r
        · exact ⟨r, List.mem_cons_self _ _, hk.symm⟩
        · have hnot2 : key a ∉ (key r :: seen) := by
            intro hc
            rcases List.mem_cons.mp hc with he | hs
            · exact hk he
            · exact hnot hs
          obtain ⟨m, hm, he⟩ := ih _ h' hnot2
          exact ⟨m, List.mem_cons_of_mem _ hm, he⟩

theorem dedupGo_left (key : Row → Option String) (seen : List (Option String))
    (l1 l2 : List Row) (m : Row) (hm : m ∈ dedupGo key seen (l1 ++ l2))
    (hex : ∃ e ∈ l1, key e = key m) : m ∈ l1 := by
  induction l1 generalizing seen with
  | nil =>
    obtain ⟨e, he, _⟩ := hex
    exact absurd he (List.not_mem_nil e)
  | cons r rs ih =>
    obtain ⟨e, he, hke⟩ := hex
    rw [List.cons_append] at hm
    simp only [dedupGo] at hm
    split at hm
    · rename_i hin
      have hnotin := dedupGo_key_notin key hm
      rcases List.mem_cons.mp he with rfl | he'
      · rw [hke] at hin
        exact absurd hin hnotin
      · exact List.mem_cons_of_mem _ (ih seen hm ⟨e, he', hke⟩)
    · rename_i hnin
      rcases List.mem_cons.mp hm with rfl | hm'
      · exact List.mem_cons_self _ _
      · have hnotin := dedupGo_key_notin key hm'
        rcases List.mem_cons.mp he with rfl | he'
        · exfalso
          apply hnotin
          rw [← hke]
          exact List.mem_cons_self _ _
        · exact List.mem_cons_of_mem _ (ih _ hm' ⟨e, he', hke⟩)

/-- A `keyed` selection preserves the row counts of both frames. -/
theorem selectKey_lengths {dfE dfN : Df} {k : String} {E' N' : Df}
    (h : selectKey dfE dfN = .keyed k E' N') :
    E'.rows.length = dfE.rows.length ∧ N'.rows.length = dfN.rows.length := by
  unfold selectKey at h
  split at h
  · injection h with h1 h2 h3
    subst h2; subst h3
    exact ⟨rfl, rfl⟩
  · split at h
    · split at h
      · injection h with h1 h2 h3
        subst h2; subst h3
        simp [List.length_map]
      · exact absurd h (by simp)
    · exact absurd h (by simp)

/-! ## Claim C1 — keyed merge deduplicates, existing records win -/

/-- C1: whenever the merge runs with a reliable dedup key (an id column,
or the reviewer+date composite key), the merged rows are exactly the
concatenation existing-then-new deduplicated on the key keeping first
occurrences; no two merged rows share a key; for any key an existing row
carries, the merged representative of that key is an existing row; and
every existing row keeps a representative. -/
theorem c1_theorem (fs : FS) (ef nf : String) (out : Option String)
    (dfE dfN : Df) (k : String) (E' N' : Df)
    (hE : fsGet fs ef = some dfE) (hN : fsGet fs nf = some dfN)
    (hne : dfN.rows ≠ []) (hsel : selectKey dfE dfN = .keyed k E' N') :
    ∃ (s : Stats) (fs' : FS) (dfM : Df),
      mergeNewReviews fs ef nf out = (.ok (out.getD ef) s, false, fs') ∧
      fsGet fs' (out.getD ef) = some dfM ∧
      dfM.rows = dedupGo (rowKey k) [] (E'.rows ++ N'.rows) ∧
      dfM.rows.Pairwise (fun a b => rowKey k a ≠ rowKey k b) ∧
      (∀ m ∈ dfM.rows, (∃ e ∈ E'.rows, rowKey k e = rowKey k m) → m ∈ E'.rows) ∧
      (∀ e ∈ E'.rows, ∃ m ∈ dfM.rows, rowKey k m = rowKey k e) := by
  have hemp : dfN.rows.isEmpty = false := by
    cases h : dfN.rows with
    | nil => exact absurd h hne
    | cons a t => rfl
  refine ⟨⟨dfE.rows.length, dfN.rows.length,
      some (((dedupGo (rowKey k) [] (E'.rows ++ N'.rows)).length : Int) -
        (dfE.rows.length : Int)),
      (dedupGo (rowKey k) [] (E'.rows ++ N'.rows)).length⟩,
    fsSet fs (out.getD ef)
      ⟨unionCols E'.cols N'.cols, dedupGo (rowKey k) [] (E'.rows ++ N'.rows)⟩,
    ⟨unionCols E'.cols N'.cols, dedupGo (rowKey k) [] (E'.rows ++ N'.rows)⟩,
    ?_, fsGet_fsSet_self .., rfl, dedupGo_pairwise .., ?_, ?_⟩
  · simp only [mergeNewReviews, hE, hN, hemp, hsel, Bool.false_eq_true, if_false]
  · intro m hm hex
    exact dedupGo_left (rowKey k) [] E'.rows N'.rows m hm hex
  · intro e hee
    exact dedupGo_rep (rowKey k) [] (E'.rows ++ N'.rows) e
      (List.mem_append_left _ hee) (List.not_mem_nil _)

theorem c1_witness :
    fsGet fs0 "existing.csv" = some dfE0 ∧ fsGet fs0 "new.csv" = some dfN0 ∧
    dfN0.rows ≠ [] ∧ selectKey dfE0 dfN0 = KeySel.keyed "review_id" dfE0 dfN0 ∧
    ∃ (s : Stats) (fs' : FS) (dfM : Df),
      mergeNewReviews fs0 "existing.csv" "new.csv" none =
        (.ok "existing.csv" s, false, fs') ∧
      fsGet fs' "existing.csv" = some dfM ∧
      dfM.rows = dedupGo (rowKey "review_id") [] (dfE0.rows ++ dfN0.rows) ∧
      dfM.rows.Pairwise (fun a b => rowKey "review_id" a ≠ rowKey "review_id" b) ∧
      (∀ m ∈ dfM.rows,
        (∃ e ∈ dfE0.rows, rowKey "review_id" e = rowKey "review_id" m) →
          m ∈ dfE0.rows) ∧
      (∀ e ∈ dfE0.rows, ∃ m ∈ dfM.rows,
        rowKey "review_id" m = rowKey "review_id" e) :=
  ⟨by decide, by decide, by decide, by decide,
   c1_theorem fs0 "existing.csv" "new.csv" none dfE0 dfN0 "review_id" dfE0 dfN0
     (by decide) (by decide) (by decide) (by decide)⟩

/-! ## Claim C2 — merge statistics arithmetic -/

/-- C2: for every successful merge whose statistics carry a new-added
count, `merged = existing + new_added` and `new_added ≤ new` hold (the
other success paths of the source omit the `"new_added"` key). -/
theorem c2_theorem (fs : FS) (ef nf : String) (out : Option String)
    (p : String) (s : Stats) (w : Bool) (fs' : FS)
    (h : mergeNewReviews fs ef nf out = (.ok p s, w, fs')) :
    ∀ a, s.newAdded = some a → (s.merged : Int) = s.existing + a ∧ a ≤ s.new := by
  simp only [mergeNewReviews] at h
  split at h
  · -- existing file absent
    split at h
    · obtain ⟨⟨h1, h2⟩, h3, h4⟩ := by
        simpa only [Prod.mk.injEq, MergeOut.ok.injEq] using h
      subst h2
      intro a ha
      simp at ha
    · simp at h
  · split at h
    · -- new file absent
      obtain ⟨⟨h1, h2⟩, h3, h4⟩ := by
        simpa only [Prod.mk.injEq, MergeOut.ok.injEq] using h
      subst h2
      intro a ha
      simp at ha
    · split at h
      · -- new frame empty
        obtain ⟨⟨h1, h2⟩, h3, h4⟩ := by
          simpa only [Prod.mk.injEq, MergeOut.ok.injEq] using h
        subst h2
        intro a ha
        simp at ha
      · split at h
        · -- degraded mode
          obtain ⟨⟨h1, h2⟩, h3, h4⟩ := by
            simpa only [Prod.mk.injEq, MergeOut.ok.injEq] using h
          subst h2
          intro a ha
          simp at ha
        · -- composite KeyError
          simp at h
        · -- keyed path
          rename_i dfE hE dfN hN hemp k E' N' hsel
          obtain ⟨⟨h1, h2⟩, h3, h4⟩ := by
            simpa only [Prod.mk.injEq, MergeOut.ok.injEq] using h
          subst h2
          intro a ha
          obtain ⟨hEL, hNL⟩ := selectKey_lengths hsel
          have hlen := dedupGo_length (rowKey k) [] (E'.rows ++ N'.rows)
          rw [List.length_append, hEL, hNL] at hlen
          simp only [Option.some.injEq] at ha
          subst ha
          exact ⟨by dsimp only; omega, by dsimp only; omega⟩

theorem c2_witness :
    mergeNewReviews fs0 "existing.csv" "new.csv" none =
      (.ok "existing.csv" ⟨2, 2, some 1, 3⟩, false,
       fsSet fs0 "existing.csv"
         ⟨unionCols dfE0.cols dfN0.cols,
          dedupGo (rowKey "review_id") [] (dfE0.rows ++ dfN0.rows)⟩) ∧
    ((3 : Nat) : Int) = ((2 : Nat) : Int) + 1 ∧ (1 : Int) ≤ ((2 : Nat) : Int) :=
  ⟨by decide,
   c2_theorem fs0 "existing.csv" "new.csv" none "existing.csv" ⟨2, 2, some 1, 3⟩
     false
     (fsSet fs0 "existing.csv"
       ⟨unionCols dfE0.cols dfN0.cols,
        dedupGo (rowKey "review_id") [] (dfE0.rows ++ dfN0.rows)⟩)
     (by decide) 1 rfl⟩

/-! ## Claim C7 — degraded merge concatenates without a new-added stat -/

/-- C7 counterexample: a degraded merge (no id column, no reviewer+date
pair) emits the warning and concatenates, but its statistics dictionary
has no new-added entry at all — the claim's `new_added_count = new_count`
is not reported. -/
theorem c7_counterexample :
    mergeNewReviews fsDeg "e.csv" "n.csv" none =
      (.ok "e.csv" ⟨1, 1, none, 2⟩, true,
       [("e.csv", ⟨["text"], [[("text", "a")], [("text", "a")]]⟩),
        ("n.csv", dfDegN)]) := by
  decide

/-- C7 amended: in degraded mode the merge concatenates the two row sets
without removing anything, raises the warning, and reports statistics
`existing`, `new` and `merged = existing + new` with no new-added entry
(the new-added count is only derivable as `merged - existing`). -/
theorem c7_theorem (fs : FS) (ef nf : String) (out : Option String)
    (dfE dfN : Df) (hE : fsGet fs ef = some dfE) (hN : fsGet fs nf = some dfN)
    (hne : dfN.rows ≠ []) (hsel : selectKey dfE dfN = .degraded) :
    mergeNewReviews fs ef nf out =
      (.ok (out.getD ef)
        ⟨dfE.rows.length, dfN.rows.length, none,
         dfE.rows.length + dfN.rows.length⟩, true,
       fsSet fs (out.getD ef)
         ⟨unionCols dfE.cols dfN.cols, dfE.rows ++ dfN.rows⟩) := by
  have hemp : dfN.rows.isEmpty = false := by
    cases h : dfN.rows with
    | nil => exact absurd h hne
    | cons a t => rfl
  simp only [mergeNewReviews, hE, hN, hemp, hsel, Bool.false_eq_true, if_false,
    List.length_append]

theorem c7_witness :
    selectKey dfDegE dfDegN = KeySel.degraded ∧
    mergeNewReviews fsDeg "e.csv" "n.csv" none =
      (.ok "e.csv"
        ⟨dfDegE.rows.length, dfDegN.rows.length, none,
         dfDegE.rows.length + dfDegN.rows.length⟩, true,
       fsSet fsDeg "e.csv"
         ⟨unionCols dfDegE.cols dfDegN.cols, dfDegE.rows ++ dfDegN.rows⟩) :=
  ⟨by decide,
   c7_theorem fsDeg "e.csv" "n.csv" none dfDegE dfDegN (by decide) (by decide)
     (by decide) (by decide)⟩

/-! ## Whitespace-stripping lemmas -/

theorem dropWhile_idem (p : Char → Bool) (l : List Char) :
    (l.dropWhile p).dropWhile p = l.dropWhile p := by
  induction l with
  | nil => rfl
  | cons c t ih =>
    by_cases h : p c
    · simp [List.dropWhile_cons, h, ih]
    · simp [List.dropWhile_cons, h]

theorem dropWhile_head_false (p : Char → Bool) {l : List Char} {c : Char}
    {t : List Char} (h : l.dropWhile p = c :: t) : p c = false := by
  induction l with
  | nil => simp [List.dropWhile] at h
  | cons a b ih =>
    by_cases ha : p a
    · rw [List.dropWhile_cons, if_pos ha] at h
      exact ih h
    · rw [List.dropWhile_cons, if_neg ha] at h
      injection h with h1 h2
      rw [← h1]
      cases hpa : p a with
      | false => rfl
      | true => exact absurd hpa ha

theorem dropWhile_eq_self (p : Char → Bool) :
    ∀ (l : List Char), (∀ c, l.head? = some c → p c = false) → l.dropWhile p = l
  | [], _ => rfl
  | c :: t, h => by simp [List.dropWhile_cons, h c rfl]

theorem getLast?_dropWhile (p : Char → Bool) (l : List Char)
    (h : l.dropWhile p ≠ []) : (l.dropWhile p).getLast? = l.getLast? := by
  induction l with
  | nil => simp [List.dropWhile] at h
  | cons c t ih =>
    by_cases hc : p c
    · rw [List.dropWhile_cons, if_pos hc] at h ⊢
      rw [ih h]
      have ht : t ≠ [] := by
        intro e
        subst e
        simp [List.dropWhile] at h
      cases t with
      | nil => exact absurd rfl ht
      | cons a b => exact (List.getLast?_cons_cons).symm
    · rw [List.dropWhile_cons, if_neg hc]

theorem stripEnds_idem (l : List Char) : stripEnds (stripEnds l) = stripEnds l := by
  unfold stripEnds
  set A := l.dropWhile isWsChar with hA
  set D := A.reverse.dropWhile isWsChar with hD
  by_cases hDnil : D = []
  · simp [hDnil, List.dropWhile]
  · have hhd : ∀ c, D.reverse.head? = some c → isWsChar c = false := by
      intro c hc
      rw [List.head?_reverse] at hc
      rw [hD, getLast?_dropWhile _ _ (hD ▸ hDnil)] at hc
      rw [List.getLast?_reverse] at hc
      cases hA2 : A with
      | nil =>
        rw [hA2] at hc
        simp at hc
      | cons x xs =>
        rw [hA2] at hc
        simp only [List.head?_cons, Option.some.injEq] at hc
        subst hc
        exact dropWhile_head_false isWsChar (hA.symm.trans hA2)
    have h1 : D.reverse.dropWhile isWsChar = D.reverse :=
      dropWhile_eq_self _ _ hhd
    rw [h1, List.reverse_reverse]
    have h2 : D.dropWhile isWsChar = D := by
      rw [hD]
      exact dropWhile_idem ..
    rw [h2]

/-! ## Claim C5 — canonicalization is not idempotent -/

/-- C5 counterexample: one pass strips only one leading boilerplate
prefix, so a second pass of the pipeline strips again and the composite
differs from a single pass. -/
theorem c5_counterexample :
    cleanReviewText "Review:Review: ok" = "Review: ok" ∧
    cleanReviewText (cleanReviewText "Review:Review: ok") = "ok" ∧
    cleanReviewText (cleanReviewText "Review:Review: ok") ≠
      cleanReviewText "Review:Review: ok" := by
  refine ⟨by decide, by decide, by decide⟩

/-- C5 amended: the pipeline is idempotent exactly on texts that every
single cleaning step already fixes — re-cleaning an output that has no
residual markup, entities, emoji, irregular whitespace or boilerplate
affixes is the identity; in general (see the counterexample) a second
application can strip further boilerplate. -/
theorem c5_theorem (s : String)
    (h1 : removeHtmlTags s = s) (h2 : htmlUnescape s = s)
    (h3 : removeEmojis s = s) (h4 : normalizeWhitespace s = s)
    (h5 : removeReviewArtifacts s = s) :
    cleanReviewText s = s := by
  unfold cleanReviewText
  by_cases he : s = ""
  · simp [he]
  · rw [if_neg he, h1, h2, h3, h4, h5]
    obtain ⟨y, hy⟩ : ∃ y, s.data = stripEnds y :=
      ⟨_, congrArg String.data h5.symm⟩
    have hfix : stripEnds s.data = s.data := by
      rw [hy, stripEnds_idem]
    rw [hfix]

theorem c5_witness :
    removeHtmlTags "good product" = "good product" ∧
    htmlUnescape "good product" = "good product" ∧
    removeEmojis "good product" = "good product" ∧
    normalizeWhitespace "good product" = "good product" ∧
    removeReviewArtifacts "good product" = "good product" ∧
    cleanReviewText "good product" = "good product" :=
  ⟨by decide, by decide, by decide, by decide, by decide,
   c5_theorem "good product" (by decide) (by decide) (by decide) (by decide)
     (by decide)⟩

/-! ## Claim C6 — rating parsing range and examples -/

/-- C6: every parsed rating lies in `[0, 5]` (the matched number is
halved on an explicit `/10` or when it exceeds 5, then clamped);
`"8/10"` parses to 4, `"4.5 out of 5"` to 4.5, and `"not a rating"` to
absent. -/
theorem c6_theorem :
    (∀ (s : String) (r : Rat), cleanRating s = some r → 0 ≤ r ∧ r ≤ 5) ∧
    cleanRating "8/10" = some 4 ∧
    cleanRating "4.5 out of 5" = some (mkRat 9 2) ∧
    cleanRating "not a rating" = none := by
  refine ⟨?_, by decide, by decide, by decide⟩
  intro s r h
  simp only [cleanRating] at h
  split at h
  · exact absurd h (by simp)
  · split at h
    · exact absurd h (by simp)
    · rw [Option.some.injEq] at h
      subst h
      unfold maxQ minQ
      constructor
      · split_ifs <;> linarith
      · split_ifs <;> linarith

theorem c6_witness :
    cleanRating "9" = some (mkRat 9 2) ∧ 0 ≤ mkRat 9 2 ∧ mkRat 9 2 ≤ 5 :=
  ⟨by decide, (c6_theorem.1 "9" (mkRat 9 2) (by decide)).1,
   (c6_theorem.1 "9" (mkRat 9 2) (by decide)).2⟩

/-! ## Claim C9 — fetch failure leaves the watermark untouched -/

/-- C9: when the fetch collaborator exits non-zero, or no fetch artifact
exists at the temp path, the cycle returns failure with empty stats, the
in-memory state map is unchanged, and no state-file write is performed. -/
theorem c9_theorem (st : StateMap) (fs : FS) (url : String)
    (fetch : ScrapeParams → FetchResult) (outOpt : Option String) (now : String)
    (params : ScrapeParams) (outFile tempFile : String)
    (hpre : computePre st url outOpt = some (params, outFile, tempFile))
    (hfail : (fetch params).returncode ≠ 0 ∨
      fsGet (applyProduced fs tempFile (fetch params).produced) tempFile = none) :
    runIncrementalScrape st fs url fetch outOpt now =
      (.returned false none none, st,
       applyProduced fs tempFile (fetch params).produced, []) := by
  simp only [runIncrementalScrape, hpre]
  rcases hfail with hrc | hnone
  · simp [hrc]
  · by_cases hrc : (fetch params).returncode ≠ 0
    · simp [hrc]
    · simp [hrc, hnone]

theorem c9_witness :
    computePre [] url0 none = some (paramsW, outW, tempW) ∧
    (fetchFail paramsW).returncode ≠ 0 ∧
    runIncrementalScrape [] [] url0 fetchFail none "t" =
      (.returned false none none, [],
       applyProduced [] tempW (fetchFail paramsW).produced, []) :=
  ⟨by decide, by decide,
   c9_theorem [] [] url0 fetchFail none "t" paramsW outW tempW (by decide)
     (Or.inl (by decide))⟩

end Scraper
